import Mathlib

/-!
Verification of the AI photo organizer's client-side orchestration.

The development shallowly embeds the repository's source:
  * `organizePhotos` — the organizer client (`services/geminiService.ts`):
    response decoding and structure validation, with every failure collapsed
    by the surrounding `try/catch` into one fixed error message.
  * `handleFileChange` — photo intake (`components/FileUpload.tsx`):
    image filtering and object-URL allocation, the allocator modelled as a
    fresh-identifier counter.
  * `handleFilesSelected`, `handleOrganizeClick`, `handleReset` — the
    application state controller (`App.tsx`), together with the `useEffect`
    cleanup that revokes the previous photo list's object URLs whenever the
    `photos` state changes. Revocations are recorded in an explicit log.
  * `photosInFolder` / `handleDownload` — folder export
    (`components/FolderViewModal.tsx`), with `fetch` abstracted as a
    per-URL oracle and `Promise.all` as short-circuiting traversal.

JSON numbers are modelled as integers (no claim distinguishes integral from
fractional numbers beyond type tags). Object URLs are modelled as opaque
natural-number handles issued by a counter, matching `URL.createObjectURL`'s
freshness guarantee.
-/

namespace PhotoOrganizer

/-- Decoded JSON values, as produced by `JSON.parse`. -/
inductive Json where
  | str : String → Json
  | num : Int → Json
  | bool : Bool → Json
  | null : Json
  | arr : List Json → Json
  | obj : List (String × Json) → Json

/-- JavaScript property access `v[k]` on a decoded value: an own field of an
object, `undefined` (here `none`) otherwise. (Accessing a field of `null`
throws in JS; inside `organizePhotos` that throw is caught by the same
catch-all as a failed validation, so both are modelled as `none`.) -/
def getField : Json → String → Option Json
  | Json.obj kvs, k => (kvs.find? (fun kv => kv.1 == k)).map (fun kv => kv.2)
  | _, _ => none

/-- `typeof v === 'string'` for a possibly-undefined value. -/
def jsTypeofString : Option Json → Bool
  | some (Json.str _) => true
  | _ => false

/-- `Array.isArray(v)` for a possibly-undefined value. -/
def jsIsArray : Option Json → Bool
  | some (Json.arr _) => true
  | _ => false

/-- The elements of an array value (only consulted after `Array.isArray`). -/
def jsElems : Json → List Json
  | Json.arr l => l
  | _ => []

/-- The single opaque error message thrown by `organizePhotos`'s catch-all. -/
def organizeFailMsg : String :=
  "Failed to organize photos. The AI model could not process the request."

/-- The structure check `organizePhotos` actually performs on the decoded
payload (geminiService.ts line 78): the payload is an array and every element
has a string `folderName` and an array-typed `photoIndices`. -/
def folderShapeOk (f : Json) : Bool :=
  jsTypeofString (getField f "folderName") && jsIsArray (getField f "photoIndices")

/-- The organizer client `organizePhotos` (geminiService.ts), observed at its
decoding/validation boundary. `resp` is the service response after
`JSON.parse`: `none` stands for any failure before validation (network error,
non-JSON text, `response.text` undefined), all of which the `catch` converts
to the single fixed message. A payload failing the structure check throws
`"Invalid JSON structure received from API."`, which the same `catch` also
replaces with the fixed message; a passing payload is returned as-is. -/
def organizePhotos (resp : Option Json) : Except String (List Json) :=
  match resp with
  | none => Except.error organizeFailMsg
  | some result =>
    if !(jsIsArray (some result))
        || (jsElems result).any (fun folder =>
              !(jsTypeofString (getField folder "folderName"))
              || !(jsIsArray (getField folder "photoIndices")))
    then Except.error organizeFailMsg
    else Except.ok (jsElems result)

/-- The output schema declared to the service, worded from the spec (§6): an
array of objects each with a string name, a string description, and an array
of integer indices. Stated here only to compare with what `organizePhotos`
really validates. -/
def matchesDeclaredSchema : Json → Bool
  | Json.arr elems => elems.all (fun f =>
      jsTypeofString (getField f "folderName")
      && jsTypeofString (getField f "description")
      && (match getField f "photoIndices" with
          | some (Json.arr xs) => xs.all (fun x =>
              match x with
              | Json.num _ => true
              | _ => false)
          | _ => false))
  | _ => false

/-- A payload element with no `description` and a string inside
`photoIndices`: outside the declared schema, yet accepted by the code's
validation. -/
def badFolderJson : Json :=
  Json.obj [("folderName", Json.str "A"), ("photoIndices", Json.arr [Json.str "x"])]

example : matchesDeclaredSchema (Json.arr [badFolderJson]) = false := by rfl

example : organizePhotos (some (Json.arr [badFolderJson])) = Except.ok [badFolderJson] := by rfl

example : organizePhotos (some (Json.str "nope")) = Except.error organizeFailMsg := by rfl

example : organizePhotos none = Except.error organizeFailMsg := by rfl

/-- Every failure of `organizePhotos` carries the single fixed message. -/
theorem organizePhotos_error_msg (resp : Option Json) (m : String)
    (h : organizePhotos resp = Except.error m) : m = organizeFailMsg := by
  cases resp with
  | none =>
    unfold organizePhotos at h
    exact ((Except.error.injEq _ _).mp h).symm
  | some result =>
    unfold organizePhotos at h
    simp only [] at h
    split at h
    · exact ((Except.error.injEq _ _).mp h).symm
    · exact absurd h (by simp)

/-! ### Photo intake (`components/FileUpload.tsx`) -/

/-- A file-like object: the two properties the code reads (`file.name`,
`file.type`). -/
structure JsFile where
  name : String
  type : String
deriving DecidableEq

/-- A `Photo` (`types.ts`): the raw file plus its displayable reference.
`previewUrl` is the object URL returned by `URL.createObjectURL`, modelled as
the opaque fresh handle the allocator issued. -/
structure Photo where
  file : JsFile
  previewUrl : Nat
deriving DecidableEq

/-- The image filter `file.type.startsWith('image/')`: the content type
begins with the characters `image/`. Modelled on the character sequence so
it is kernel-computable. -/
def isImage (f : JsFile) : Bool := "image/".data.isPrefixOf f.type.data

/-- `URL.createObjectURL` applied along a file list: each call returns a
fresh handle, modelled by a counter `n` that the allocator threads through
and that only ever increases. Returns the built photos and the next counter. -/
def allocPhotos : List JsFile → Nat → List Photo × Nat
  | [], n => ([], n)
  | f :: fs, n =>
    let rest := allocPhotos fs (n + 1)
    (⟨f, n⟩ :: rest.1, rest.2)

/-- `handleFileChange` (FileUpload.tsx lines 13–23): when `files` is null the
handler does nothing (callback not invoked, modelled `none`); otherwise it
filters to image content types, allocates a preview URL per kept file, and
invokes `onFilesSelected` with the result (modelled `some photos`). Both the
picker's `onChange` and the drop handler funnel into this one function. -/
def handleFileChange (files : Option (List JsFile)) (n : Nat) :
    Option (List Photo) × Nat :=
  match files with
  | none => (none, n)
  | some fs =>
    let alloc := allocPhotos (fs.filter isImage) n
    (some alloc.1, alloc.2)

/-! ### Application state controller (`App.tsx`) -/

/-- The component state of `App`: the four `useState` fields, plus an
explicit log of every `URL.revokeObjectURL` call made so far (the handles
passed to it, in order), so that release behaviour is observable. -/
structure AppState where
  photos : List Photo
  organizedFolders : Option (List Json)
  isLoading : Bool
  error : Option String
  revokes : List Nat

/-- The initial component state: no photos, no result, not loading, no
error, nothing revoked. -/
def initState : AppState := ⟨[], none, false, none, []⟩

/-- The displayable references held by a photo list. -/
def urlsOf (ps : List Photo) : List Nat := ps.map Photo.previewUrl

/-- The `useEffect` cleanup (App.tsx lines 15–20): its dependency array is
`[photos]`, so whenever the photo list is replaced, React runs the cleanup
closed over the previous list, revoking each of its object URLs. -/
def effectCleanup (oldPhotos : List Photo) (s : AppState) : AppState :=
  { s with revokes := s.revokes ++ urlsOf oldPhotos }

/-- The `handleFilesSelected` handler body (App.tsx lines 22–28): revoke the
previous photos' URLs, install the new photo list, clear result and error. -/
def handleFilesSelected (s : AppState) (selectedPhotos : List Photo) : AppState :=
  { s with
    photos := selectedPhotos
    organizedFolders := none
    error := none
    revokes := s.revokes ++ urlsOf s.photos }

/-- One full select-photos transition: the handler runs, then (because
`photos` changed) the effect cleanup for the outgoing list runs. -/
def selectOp (s : AppState) (selectedPhotos : List Photo) : AppState :=
  effectCleanup s.photos (handleFilesSelected s selectedPhotos)

/-- `err.message || "An unknown error occurred."` — JS `||` falls through on
the empty string. -/
def errMsgOr (m : String) : String :=
  if m = "" then "An unknown error occurred." else m

/-- `handleOrganizeClick` (App.tsx lines 30–47), observed from invocation to
completion. `outcome` is what the awaited `organizePhotos(photos)` call
produced; when the guard fires the call is never made, and the state update
is the same whatever `outcome` would have been. On the main path the handler
sets loading, clears error and result, then on success stores the returned
folders and on failure stores the error message; `finally` clears loading.
`photos` is untouched, so the `useEffect` cleanup does not run. -/
def handleOrganizeClick (s : AppState) (outcome : Except String (List Json)) :
    AppState :=
  if s.photos.length = 0 then
    { s with error := some "Please upload some photos first." }
  else
    match outcome with
    | Except.ok folders =>
      { s with isLoading := false, error := none, organizedFolders := some folders }
    | Except.error m =>
      { s with isLoading := false, error := some (errMsgOr m), organizedFolders := none }

/-- The `handleReset` handler body (App.tsx lines 49–55): revoke the current
photos' URLs, clear photos, result, error and the loading flag. -/
def handleReset (s : AppState) : AppState :=
  { s with
    photos := []
    organizedFolders := none
    error := none
    isLoading := false
    revokes := s.revokes ++ urlsOf s.photos }

/-- One full reset transition: the handler runs, then (because `photos`
changed to a fresh empty array) the effect cleanup for the outgoing list
runs. -/
def resetOp (s : AppState) : AppState :=
  effectCleanup s.photos (handleReset s)

/-! ### Folder export (`components/FolderViewModal.tsx`) -/

/-- An `OrganizedFolder` (`types.ts`). `photoIndices` are JS numbers,
modelled as integers. -/
structure OrganizedFolder where
  folderName : String
  description : String
  photoIndices : List Int
deriving DecidableEq

/-- The ways the export pipeline fails: reading `photo.previewUrl` off
`undefined` (an out-of-range index) throws a TypeError, and a `fetch` of a
photo's blob can reject; both are caught at the `handleDownload` boundary. -/
inductive ExportError where
  | undefinedPhoto : ExportError
  | fetchFailed : String → ExportError
deriving DecidableEq

/-- JS array indexing `allPhotos[index]`: `undefined` (`none`) when the
index is negative or at least the length. -/
def jsIndex (l : List Photo) (i : Int) : Option Photo :=
  if i < 0 then none else l.get? i.toNat

/-- `photosInFolder` (FolderViewModal.tsx line 13): resolve every member
index against the photo list; an out-of-range index resolves to `undefined`. -/
def photosInFolder (folder : OrganizedFolder) (allPhotos : List Photo) :
    List (Option Photo) :=
  folder.photoIndices.map (jsIndex allPhotos)

/-- `Promise.all` over fallible per-element work: all results in order, or
the failure — never a partial list. -/
def mapExcept (f : α → Except ε β) : List α → Except ε (List β)
  | [] => Except.ok []
  | a :: l =>
    match f a with
    | Except.error e => Except.error e
    | Except.ok b =>
      match mapExcept f l with
      | Except.error e => Except.error e
      | Except.ok bs => Except.ok (b :: bs)

/-- The data-gathering core of `handleDownload` (FolderViewModal.tsx lines
15–37): for each resolved photo fetch its blob (the `fetch` oracle maps a
preview URL to a blob, `none` for a rejected request) and pair it with the
file's name; an `undefined` photo throws before any fetch. The whole
operation fails if any step fails; on success it yields the name/blob pairs
that are put into the zip archive. -/
def handleDownload (fetchBlob : Nat → Option String)
    (folder : OrganizedFolder) (allPhotos : List Photo) :
    Except ExportError (List (String × String)) :=
  mapExcept (fun op =>
    match op with
    | none => Except.error ExportError.undefinedPhoto
    | some p =>
      match fetchBlob p.previewUrl with
      | none => Except.error (ExportError.fetchFailed p.file.name)
      | some b => Except.ok (p.file.name, b))
    (photosInFolder folder allPhotos)

/-! ### Controller transition system -/

/-- One user-visible transition of the state controller: a photo selection
(with whatever photo list intake produced), an organize click (with whatever
the awaited client call produced), or a reset. -/
inductive Step : AppState → AppState → Prop where
  | select (s : AppState) (ps : List Photo) : Step s (selectOp s ps)
  | organize (s : AppState) (o : Except String (List Json)) :
      Step s (handleOrganizeClick s o)
  | reset (s : AppState) : Step s (resetOp s)

/-- States reachable from the initial state through the named operations. -/
inductive Reachable : AppState → Prop where
  | init : Reachable initState
  | step {s t : AppState} : Reachable s → Step s t → Reachable t

/-! ### Fixtures used by witness theorems -/

/-- A sample image photo holding displayable reference 0. -/
def samplePhoto : Photo := ⟨⟨"a.jpg", "image/jpeg"⟩, 0⟩

/-- A sample non-image file. -/
def samplePdf : JsFile := ⟨"doc.pdf", "application/pdf"⟩

/-- A sample `Ready` controller state: one photo, no result, no error. -/
def sampleReady : AppState := { initState with photos := [samplePhoto] }

/-! ### Supporting lemmas -/

theorem allocPhotos_map_file (fs : List JsFile) (n : Nat) :
    (allocPhotos fs n).1.map Photo.file = fs := by
  induction fs generalizing n with
  | nil => rfl
  | cons f fs ih => simp [allocPhotos, ih]

theorem allocPhotos_map_url (fs : List JsFile) (n : Nat) :
    (allocPhotos fs n).1.map Photo.previewUrl = List.range' n fs.length := by
  induction fs generalizing n with
  | nil => rfl
  | cons f fs ih =>
    show _ :: (allocPhotos fs (n + 1)).1.map Photo.previewUrl
        = n :: List.range' (n + 1) fs.length
    rw [ih]

theorem allocPhotos_counter (fs : List JsFile) (n : Nat) :
    (allocPhotos fs n).2 = n + fs.length := by
  induction fs generalizing n with
  | nil => rfl
  | cons f fs ih => simp [allocPhotos, ih]; omega

theorem mapExcept_error_of_mem {α β ε : Type} (f : α → Except ε β) (l : List α)
    (x : α) (hx : x ∈ l) (e : ε) (hfx : f x = Except.error e) :
    ∃ e', mapExcept f l = Except.error e' := by
  induction l with
  | nil => cases hx
  | cons a l ih =>
    cases hx with
    | head => exact ⟨e, by simp [mapExcept, hfx]⟩
    | tail _ hmem =>
      obtain ⟨e', he'⟩ := ih hmem
      cases hfa : f a with
      | error ea => exact ⟨ea, by simp [mapExcept, hfa]⟩
      | ok b => exact ⟨e', by simp [mapExcept, hfa, he']⟩

/-- The invariant maintained by every controller operation: error and result
are never both present, and a state without photos holds no result. -/
theorem reachable_inv (s : AppState) (h : Reachable s) :
    (s.error = none ∨ s.organizedFolders = none)
    ∧ (s.photos = [] → s.organizedFolders = none) := by
  induction h with
  | init => exact ⟨Or.inl rfl, fun _ => rfl⟩
  | step _ hs ih =>
    cases hs with
    | select ps => exact ⟨Or.inl rfl, fun _ => rfl⟩
    | organize o =>
      unfold handleOrganizeClick
      split
      · next hp =>
        have hres := ih.2 (List.length_eq_zero.mp hp)
        exact ⟨Or.inr hres, fun _ => hres⟩
      · next hp =>
        cases o with
        | ok folders =>
          refine ⟨Or.inl rfl, fun hphotos => ?_⟩
          exact absurd (List.length_eq_zero.mpr hphotos) hp
        | error m => exact ⟨Or.inr rfl, fun _ => rfl⟩
    | reset => exact ⟨Or.inl rfl, fun _ => rfl⟩

/-! ### Claim theorems -/

/-- C1 (counterexample): a decoded payload whose element has no
`description` field and a string inside `photoIndices` does not match the
declared output schema, yet `organizePhotos` accepts it and returns it
rather than failing — so the claim that any payload of any other shape than
the declared schema makes the call fail is false on the code. -/
theorem c1_counterexample :
    matchesDeclaredSchema (Json.arr [badFolderJson]) = false
    ∧ organizePhotos (some (Json.arr [badFolderJson])) = Except.ok [badFolderJson] :=
  ⟨rfl, rfl⟩

/-- C1 (amended): the organizer client validates only part of the declared
schema: a call succeeds exactly on payloads that are arrays whose every
element has a string `folderName` and an array-typed `photoIndices`
(string-ness of `description` and integer-ness of the indices are not
checked); every accepted payload is returned exactly as decoded, and every
payload matching the full declared schema is accepted. -/
theorem c1_organize_validation :
    (∀ (resp : Option Json) (elems : List Json),
        organizePhotos resp = Except.ok elems →
        resp = some (Json.arr elems) ∧ elems.all folderShapeOk = true)
    ∧ (∀ j : Json, matchesDeclaredSchema j = true →
        ∃ elems, organizePhotos (some j) = Except.ok elems) := by
  constructor
  · intro resp elems h
    cases resp with
    | none => simp [organizePhotos] at h
    | some result =>
      unfold organizePhotos at h
      simp only [] at h
      split at h
      · simp at h
      · next hcond =>
        rw [Bool.not_eq_true, Bool.or_eq_false_iff] at hcond
        obtain ⟨hisarr, hany⟩ := hcond
        cases result with
        | arr l =>
          have hl : l = elems := by simpa [jsElems] using h
          subst hl
          refine ⟨rfl, ?_⟩
          rw [List.all_eq_true]
          intro f hf
          have hall : ∀ x ∈ l, jsTypeofString (getField x "folderName") = true
              ∧ jsIsArray (getField x "photoIndices") = true := by
            simpa [jsElems] using hany
          have hx := hall f hf
          simp [folderShapeOk, hx.1, hx.2]
        | str v => simp [jsIsArray] at hisarr
        | num v => simp [jsIsArray] at hisarr
        | bool v => simp [jsIsArray] at hisarr
        | null => simp [jsIsArray] at hisarr
        | obj kvs => simp [jsIsArray] at hisarr
  · intro j hj
    cases j with
    | arr elems =>
      refine ⟨elems, ?_⟩
      unfold organizePhotos
      simp only []
      rw [if_neg, jsElems]
      rw [Bool.not_eq_true, Bool.or_eq_false_iff]
      refine ⟨rfl, ?_⟩
      rw [List.any_eq_false]
      intro f hf
      unfold matchesDeclaredSchema at hj
      rw [List.all_eq_true] at hj
      have hfj := hj f (by simpa [jsElems] using hf)
      simp only [Bool.and_eq_true] at hfj
      have hidx : jsIsArray (getField f "photoIndices") = true := by
        cases hg : getField f "photoIndices" with
        | none => rw [hg] at hfj; simp at hfj
        | some v =>
          cases v <;> rw [hg] at hfj <;> simp_all [jsIsArray]
      simp [hfj.1, hidx]
    | str v => simp [matchesDeclaredSchema] at hj
    | num v => simp [matchesDeclaredSchema] at hj
    | bool v => simp [matchesDeclaredSchema] at hj
    | null => simp [matchesDeclaredSchema] at hj
    | obj kvs => simp [matchesDeclaredSchema] at hj

/-- C1 (witness): the empty array matches the declared schema and is
accepted. -/
theorem c1_organize_validation_witness :
    ∃ elems, organizePhotos (some (Json.arr [])) = Except.ok elems :=
  c1_organize_validation.2 (Json.arr []) rfl

/-- C2: when the photo set is empty, an organize click only installs the
validation message "Please upload some photos first."; photos, result,
loading flag and revocation log are untouched, and the resulting state does
not depend on what the organizer client would have returned — the client is
never invoked. -/
theorem c2_empty_organize_noop (s : AppState) (o o' : Except String (List Json))
    (h : s.photos = []) :
    handleOrganizeClick s o = { s with error := some "Please upload some photos first." }
    ∧ handleOrganizeClick s o = handleOrganizeClick s o' := by
  have hlen : s.photos.length = 0 := by simp [h]
  constructor <;> simp [handleOrganizeClick, hlen]

/-- C2 (witness). -/
theorem c2_empty_organize_noop_witness :
    handleOrganizeClick initState (Except.ok [])
      = { initState with error := some "Please upload some photos first." }
    ∧ handleOrganizeClick initState (Except.ok [])
      = handleOrganizeClick initState (Except.error "boom") :=
  c2_empty_organize_noop initState (Except.ok []) (Except.error "boom") rfl

/-- C3: if a folder's `photoIndices` contains an index at least the length
of the photo list, the export pipeline fails with an `ExportError` — the
resolved `undefined` photo makes the gathering step throw, which is caught
at the operation boundary; no partial archive is produced and the function
is total (no crash in the model). -/
theorem c3_export_out_of_range (fetchBlob : Nat → Option String)
    (folder : OrganizedFolder) (allPhotos : List Photo) (i : Int)
    (hmem : i ∈ folder.photoIndices) (hge : (allPhotos.length : Int) ≤ i) :
    ∃ e, handleDownload fetchBlob folder allPhotos = Except.error e := by
  have hnone : jsIndex allPhotos i = none := by
    unfold jsIndex
    rw [if_neg (by omega)]
    exact List.get?_eq_none.mpr (by omega)
  have hmem' : (none : Option Photo) ∈ photosInFolder folder allPhotos := by
    unfold photosInFolder
    exact List.mem_map.mpr ⟨i, hmem, hnone⟩
  exact mapExcept_error_of_mem _ _ none hmem' ExportError.undefinedPhoto rfl

/-- C3 (witness): index 0 against an empty photo list. -/
theorem c3_export_out_of_range_witness :
    ∃ e, handleDownload (fun _ => some "") ⟨"f", "d", [0]⟩ [] = Except.error e :=
  c3_export_out_of_range (fun _ => some "") ⟨"f", "d", [0]⟩ [] 0
    (by simp) (by simp)

/-- C4: when the organizer client succeeds, the controller stores exactly
the folder sequence the client returned — the resulting state is the old
state with only `organizedFolders := some elems` (plus the cleared loading
flag and error); nothing is added, dropped, reordered or transformed. -/
theorem c4_success_stores_client_result (s : AppState) (resp : Option Json)
    (elems : List Json) (hp : s.photos ≠ [])
    (h : organizePhotos resp = Except.ok elems) :
    handleOrganizeClick s (organizePhotos resp)
      = { s with isLoading := false, error := none, organizedFolders := some elems } := by
  rw [h]
  unfold handleOrganizeClick
  rw [if_neg (fun hlen => hp (List.length_eq_zero.mp hlen))]

/-- C4 (witness): a one-photo state and the empty-array response. -/
theorem c4_success_stores_client_result_witness :
    handleOrganizeClick sampleReady (organizePhotos (some (Json.arr [])))
      = { sampleReady with
          isLoading := false
          error := none
          organizedFolders := some [] } :=
  c4_success_stores_client_result sampleReady (some (Json.arr [])) []
    (by simp [sampleReady, initState]) rfl

/-- C5: when the organizer client fails, the controller keeps the photo set,
stores the failure's message as the error, and holds no organization result
(it was cleared on invocation and never repopulated). The client's only
failure message is non-empty, so the `|| "An unknown error occurred."`
fallback never replaces it. -/
theorem c5_failure_state (s : AppState) (resp : Option Json) (m : String)
    (hp : s.photos ≠ []) (h : organizePhotos resp = Except.error m) :
    (handleOrganizeClick s (Except.error m)).photos = s.photos
    ∧ (handleOrganizeClick s (Except.error m)).error = some m
    ∧ (handleOrganizeClick s (Except.error m)).organizedFolders = none := by
  have hm : m = organizeFailMsg := organizePhotos_error_msg resp m h
  have hm' : errMsgOr m = m := by rw [hm]; rfl
  have hlen : ¬s.photos.length = 0 := fun hlen => hp (List.length_eq_zero.mp hlen)
  refine ⟨?_, ?_, ?_⟩ <;> simp [handleOrganizeClick, hlen, hm']

/-- C5 (witness): a one-photo state and a failed decode (`none`). -/
theorem c5_failure_state_witness :
    (handleOrganizeClick sampleReady (Except.error organizeFailMsg)).photos
        = sampleReady.photos
    ∧ (handleOrganizeClick sampleReady (Except.error organizeFailMsg)).error
        = some organizeFailMsg
    ∧ (handleOrganizeClick sampleReady
        (Except.error organizeFailMsg)).organizedFolders = none :=
  c5_failure_state sampleReady none organizeFailMsg
    (by simp [sampleReady, initState]) rfl

/-- C6: intake keeps exactly the image-typed entries, in their original
relative order, pairs each with a freshly allocated displayable reference
(consecutive fresh handles starting at the current counter, hence pairwise
distinct and all new), and drops non-image entries without any error — the
callback is always invoked with the filtered list. -/
theorem c6_intake_filter_order_fresh (files : List JsFile) (n : Nat) :
    ∃ ps : List Photo,
      handleFileChange (some files) n
        = (some ps, n + (files.filter isImage).length)
      ∧ ps.map Photo.file = files.filter isImage
      ∧ ps.map Photo.previewUrl = List.range' n (files.filter isImage).length
      ∧ (ps.map Photo.previewUrl).Nodup
      ∧ ∀ u ∈ ps.map Photo.previewUrl, n ≤ u := by
  refine ⟨(allocPhotos (files.filter isImage) n).1, ?_, allocPhotos_map_file _ _,
    allocPhotos_map_url _ _, ?_, ?_⟩
  · unfold handleFileChange
    simp only []
    rw [allocPhotos_counter]
  · rw [allocPhotos_map_url]
    exact List.nodup_range' n (files.filter isImage).length
  · rw [allocPhotos_map_url]
    intro u hu
    exact (List.mem_range'_1.mp hu).1

/-- C6 (witness): one image file and one non-image file at counter 7. -/
theorem c6_intake_filter_order_fresh_witness :
    ∃ ps : List Photo,
      handleFileChange (some [⟨"a.jpg", "image/jpeg"⟩, samplePdf]) 7
        = (some ps, 7 + ([⟨"a.jpg", "image/jpeg"⟩, samplePdf].filter isImage).length)
      ∧ ps.map Photo.file = [⟨"a.jpg", "image/jpeg"⟩, samplePdf].filter isImage
      ∧ ps.map Photo.previewUrl
          = List.range' 7 ([⟨"a.jpg", "image/jpeg"⟩, samplePdf].filter isImage).length
      ∧ (ps.map Photo.previewUrl).Nodup
      ∧ ∀ u ∈ ps.map Photo.previewUrl, 7 ≤ u :=
  c6_intake_filter_order_fresh [⟨"a.jpg", "image/jpeg"⟩, samplePdf] 7

/-- C7 (counterexample): select one photo, then reset. The photo's
displayable reference (handle 0) is revoked twice — once by the reset
handler and once by the `useEffect` cleanup that runs when `photos`
changes — so "no reference is released twice" is false on the code. -/
theorem c7_counterexample :
    (resetOp (selectOp initState [samplePhoto])).revokes.count 0 = 2 := by rfl

/-- C7 (amended): every displayable reference of the outgoing photo set is
released when the set is replaced or reset — none is leaked — but it is
released exactly twice, not once: the handler revokes it and the effect
cleanup revokes it again; an organize click releases nothing. -/
theorem c7_release_twice (s : AppState) (ps : List Photo)
    (o : Except String (List Json)) (u : Nat) :
    (selectOp s ps).revokes.count u
        = s.revokes.count u + 2 * (urlsOf s.photos).count u
    ∧ (resetOp s).revokes.count u
        = s.revokes.count u + 2 * (urlsOf s.photos).count u
    ∧ (handleOrganizeClick s o).revokes = s.revokes := by
  refine ⟨?_, ?_, ?_⟩
  · simp [selectOp, handleFilesSelected, effectCleanup, List.count_append]
    ring
  · simp [resetOp, handleReset, effectCleanup, List.count_append]
    ring
  · unfold handleOrganizeClick
    split
    · rfl
    · cases o <;> rfl

/-- C8: from any state, resetting twice equals resetting once, and one
reset already yields the `Empty` state — no photos, no result, no error, not
loading — with every displayable reference of the previous photo set
appearing in the revocation log. The second reset revokes nothing, so the
repeat is safe. -/
theorem c8_reset_idempotent (s : AppState) :
    resetOp (resetOp s) = resetOp s
    ∧ (resetOp s).photos = []
    ∧ (resetOp s).organizedFolders = none
    ∧ (resetOp s).error = none
    ∧ (resetOp s).isLoading = false
    ∧ ∀ p ∈ s.photos, p.previewUrl ∈ (resetOp s).revokes := by
  refine ⟨?_, rfl, rfl, rfl, rfl, ?_⟩
  · simp [resetOp, handleReset, effectCleanup, urlsOf]
  · intro p hp
    simp only [resetOp, effectCleanup, handleReset, urlsOf, List.mem_append]
    exact Or.inl (Or.inr (List.mem_map.mpr ⟨p, hp, rfl⟩))

/-- C8 (witness): a one-photo state; the photo's reference is in the log. -/
theorem c8_reset_idempotent_witness :
    resetOp (resetOp sampleReady) = resetOp sampleReady
    ∧ samplePhoto.previewUrl ∈ (resetOp sampleReady).revokes :=
  ⟨(c8_reset_idempotent sampleReady).1,
   (c8_reset_idempotent sampleReady).2.2.2.2.2 samplePhoto
     (by simp [sampleReady, initState])⟩

/-- C9: in every controller state reachable from the initial state through
select / organize / reset, the error message and the organization result are
never both present: at least one of the two fields is `none`. -/
theorem c9_error_result_exclusive (s : AppState) (h : Reachable s) :
    s.error = none ∨ s.organizedFolders = none :=
  (reachable_inv s h).1

/-- C9 (witness): the initial state. -/
theorem c9_error_result_exclusive_witness :
    initState.error = none ∨ initState.organizedFolders = none :=
  c9_error_result_exclusive initState Reachable.init

/-- C10: a non-empty file list with no image-typed entry still reaches the
selection callback, with the empty photo sequence (and no new reference
allocated); applying that selection clears the photo set, the organization
result and the error, returning the application to the `Empty` state. -/
theorem c10_all_nonimage_clears (files : List JsFile) (n : Nat) (s : AppState)
    (_hne : files ≠ []) (hni : ∀ f ∈ files, isImage f = false) :
    handleFileChange (some files) n = (some [], n)
    ∧ (selectOp s []).photos = []
    ∧ (selectOp s []).organizedFolders = none
    ∧ (selectOp s []).error = none := by
  have hfilter : files.filter isImage = [] :=
    List.filter_eq_nil_iff.mpr (fun a ha => by simp [hni a ha])
  refine ⟨?_, rfl, rfl, rfl⟩
  unfold handleFileChange
  simp only []
  rw [hfilter]
  rfl

/-- C10 (witness): one PDF file against a one-photo state. -/
theorem c10_all_nonimage_clears_witness :
    handleFileChange (some [samplePdf]) 0 = (some [], 0)
    ∧ (selectOp sampleReady []).photos = []
    ∧ (selectOp sampleReady []).organizedFolders = none
    ∧ (selectOp sampleReady []).error = none :=
  c10_all_nonimage_clears [samplePdf] 0 sampleReady (by simp)
    (by intro f hf; simp only [List.mem_singleton] at hf; subst hf; decide)

end PhotoOrganizer
